import Mathlib

/-!
Verification of the Cardless withdrawal-token service (TokenService):
a shallow embedding of `generateWithdrawalToken` and `redeemWithdrawalToken`
together with the persisted state they operate on, and proofs of the
behavioural properties stated in the specification.

Modelling conventions:
* JS strings that are parsed character-by-character (the raw token) are
  `List Char`; opaque identifiers stay `String`.
* Time is `Nat` (milliseconds); each redemption call carries the clock
  value observed at the unlocked candidate lookup (`now1`) and at the
  locked re-check (`now2`), since the code calls `new Date()` separately
  at those two points.
* SHA-256 digests are modelled symbolically: a digest is the triple of
  its inputs (pepper, plaintext, salt), a standard collision-free
  idealisation.  `crypto.timingSafeEqual` on digests becomes equality of
  triples.
* `crypto.randomInt(0, 36)` and `crypto.randomBytes(16)` are modelled by
  explicit oracle arguments supplying the random choices.
* The storage engine's insert outcome (unique violation or other error)
  is an oracle argument giving the error code per attempt, mirroring the
  `err.code === '23505'` check in the code.
-/

namespace Cardless

/-- Symbolic SHA-256 digest: determined exactly by pepper, plaintext and
salt (collision-free idealisation of the hash). -/
structure HashVal where
  pepper : String
  plain : List Char
  salt : Nat
deriving DecidableEq, Repr

/-- `hashToken`: SHA256(pepper ++ plaintext ++ salt), modelled symbolically. -/
def hashToken (pepper : String) (plaintextToken : List Char) (salt : Nat) : HashVal :=
  ⟨pepper, plaintextToken, salt⟩

/-- `token_status` enum from the schema. -/
inductive TokenStatus where
  | ACTIVE
  | USED
  | EXPIRED
deriving DecidableEq, Repr

/-- A row of the `tokens` table (`pfx` is the `prefix` column). -/
structure Token where
  id : Nat
  account_id : String
  amount : ℚ
  token_hash : HashVal
  salt : Nat
  pfx : List Char
  status : TokenStatus
  expires_at : Nat
  used_at : Option Nat
deriving DecidableEq, Repr

/-- A row of the append-only `transactions` ledger. -/
structure LedgerRow where
  id : Nat
  account_id : String
  token_id : Nat
  type : String
  amount : ℚ
  status : String
deriving DecidableEq, Repr

/-- A row of the `redemption_attempts` table. -/
structure AttemptRow where
  token_id : Nat
  agent_id : String
  result : String
  metadata : String
deriving DecidableEq, Repr

/-- The persisted state owned by the token store. -/
structure DBState where
  tokens : List Token
  transactions : List LedgerRow
  redemption_attempts : List AttemptRow
  nextId : Nat
deriving DecidableEq, Repr

/-- The empty database. -/
def DBState.empty : DBState := ⟨[], [], [], 0⟩

/-- The uppercase alphanumeric charset used by `generateRandomToken`. -/
def charset : String := "ABCDEFGHIJKLMNOPQRSTUVWXYZ0123456789"

theorem charset_length : charset.toList.length = 36 := by decide

/-- Character of `charset` at a given index. -/
def charAt (i : Fin 36) : Char :=
  charset.toList.get (Fin.cast charset_length.symm i)

/-- `generateRandomToken(length)`: builds a string of `length` characters
drawn from `charset`; the CSPRNG indices are supplied by the oracle
`pick`. -/
def generateRandomToken (length : Nat) (pick : Nat → Fin 36) : List Char :=
  (List.range length).map (fun i => charAt (pick i))

/-- JS `String.prototype.split('-')` on a character list. -/
def splitDash : List Char → List (List Char)
  | [] => [[]]
  | c :: rest =>
    if c = '-' then [] :: splitDash rest
    else
      match splitDash rest with
      | [] => [[c]]
      | seg :: segs => (c :: seg) :: segs

/-- Events of a redemption call, in execution order, used to state where
the storage transaction opens and which storage operations run inside it. -/
inductive Ev where
  | txBegin
  | query
  | lockRow
  | updateRow
  | insertLedger
  | insertAttempt
  | txCommit
deriving DecidableEq, Repr

/-- The `result` field of a redemption response. -/
inductive RedeemResult where
  | SUCCESS (tokenId : Nat) (transactionId : Nat)
  | INVALID
  | EXPIRED_OR_USED
  | ERROR
deriving DecidableEq, Repr

/-- Outcome of a redemption call: the returned result, the state of the
store afterwards, and the trace of transaction/storage events. -/
structure RedeemOut where
  res : RedeemResult
  state : DBState
  trace : List Ev
deriving DecidableEq, Repr

/-- Step 1 lookup and Step 2 verification, as executed inside the
transaction: filter ACTIVE, unexpired tokens with the presented prefix and
find the first whose stored hash matches the recomputed one. -/
def matchedCandidate (pepper : String) (fullToken : List Char) (pre : List Char)
    (now1 : Nat) (s : DBState) : Option Token :=
  let candidateTokens := s.tokens.filter fun t =>
    t.pfx = pre && t.status == TokenStatus.ACTIVE && decide (now1 < t.expires_at)
  candidateTokens.find? fun t => hashToken pepper fullToken t.salt == t.token_hash

/-- The `update` of Step 3: set a row to USED, guarded by the
`{ id, status: 'ACTIVE' }` where-clause of the code. -/
def markUsed (i now2 : Nat) (t : Token) : Token :=
  if t.id = i ∧ t.status = TokenStatus.ACTIVE then
    { t with status := TokenStatus.USED, used_at := some now2 }
  else t

/-- The transaction callback of `redeemWithdrawalToken` (everything inside
`db.transaction`): returns the result, the post-state and the trace of
storage events performed inside the transaction. -/
def redeemBody (pepper : String) (fullToken : List Char) (agentId : String)
    (metadata : String) (pre : List Char) (now1 now2 : Nat) (s : DBState) :
    RedeemResult × DBState × List Ev :=
  match matchedCandidate pepper fullToken pre now1 s with
  | none => (.INVALID, s, [.query])
  | some m =>
    -- re-fetch the matched row by primary key FOR UPDATE
    match s.tokens.find? (fun t => t.id == m.id) with
    | none => (.EXPIRED_OR_USED, s, [.query, .lockRow])
    | some token =>
      if token.status ≠ TokenStatus.ACTIVE ∨ token.expires_at ≤ now2 then
        (.EXPIRED_OR_USED, s, [.query, .lockRow])
      else
        let txId := s.nextId
        let tokens' := s.tokens.map (markUsed token.id now2)
        (.SUCCESS token.id txId,
         { tokens := tokens'
           transactions := s.transactions ++
             [⟨txId, token.account_id, token.id, "WITHDRAWAL", token.amount, "SUCCESS"⟩]
           redemption_attempts := s.redemption_attempts ++
             [⟨token.id, agentId, "SUCCESS", metadata⟩]
           nextId := s.nextId + 1 },
         [.query, .lockRow, .updateRow, .insertLedger, .insertAttempt])

/-- Modelled from the spec: the knex `db.transaction` combinator (external
library, not in this repository).  The callback's writes commit atomically
on normal return; if the storage engine aborts the transaction at any
point, every write is rolled back and the original state is observable. -/
def dbTransaction (abort : Bool) (s : DBState)
    (body : RedeemResult × DBState × List Ev) : RedeemOut :=
  if abort then ⟨.ERROR, s, [.txBegin]⟩
  else ⟨body.1, body.2.1, .txBegin :: body.2.2 ++ [.txCommit]⟩

/-- `redeemWithdrawalToken(fullToken, agentId, metadata)` with explicit
clock values and an abort flag for the storage engine. -/
def redeemWithdrawalToken (pepper : String) (fullToken : List Char) (agentId : String)
    (metadata : String) (now1 now2 : Nat) (abort : Bool) (s : DBState) : RedeemOut :=
  if fullToken = [] ∨ fullToken.contains '-' = false ∨ agentId = "" then
    ⟨.INVALID, s, []⟩
  else
    let parts := splitDash fullToken
    let pre := parts.getD 0 []
    let coreToken := parts.getD 1 []
    if pre.length ≠ 4 ∨ coreToken.length ≠ 8 then
      ⟨.INVALID, s, []⟩
    else
      dbTransaction abort s (redeemBody pepper fullToken agentId metadata pre now1 now2 s)

/-- UUID shape check used by the Joi `string().uuid()` validator:
8-4-4-4-12 hexadecimal groups. -/
def isUuid (sId : String) : Bool :=
  let l := sId.toList
  l.length = 36 && (List.range 36).all fun i =>
    if i = 8 ∨ i = 13 ∨ i = 18 ∨ i = 23 then l.getD i ' ' = '-'
    else (l.getD i ' ').isDigit || ('a' ≤ l.getD i ' ' && l.getD i ' ' ≤ 'f')
      || ('A' ≤ l.getD i ' ' && l.getD i ' ' ≤ 'F')

/-- `validateGenerationParams`: accountId must be a UUID string and amount
a strictly positive integer (Joi `number().integer().positive()`); amounts
are modelled as rationals so that fractional inputs such as 100.5 are
expressible.  Returns the Joi error message, if any. -/
def validateGenerationParams (accountId : String) (amount : ℚ) : Option String :=
  if isUuid accountId = false then some "accountId must be a valid GUID"
  else if amount.den ≠ 1 ∨ amount ≤ 0 then some "amount must be a positive integer"
  else none

/-- `MAX_RETRIES` from the TokenService constructor. -/
def MAX_RETRIES : Nat := 3

/-- The random choices consumed by one generation attempt: CSPRNG indices
for the 8-character core and the 4-character prefix, and the 16-byte salt. -/
structure GenChoice where
  corePick : Nat → Fin 36
  prefixPick : Nat → Fin 36
  salt : Nat

/-- The object returned by a successful `generateWithdrawalToken`. -/
structure GenOk where
  id : Nat
  token : List Char
  amount : ℚ
  expiresAt : Nat
deriving DecidableEq, Repr

/-- The `while (retries < MAX_RETRIES)` loop of `generateWithdrawalToken`.
`choices n` supplies the randomness of attempt `n`; `ins n` is the storage
error code raised by the insert of attempt `n` (`none` = insert committed,
`some "23505"` = unique violation).  Returns the result, the final state
and the number of insert attempts performed. -/
def generateLoop (pepper accountId : String) (amount : ℚ) (expirySeconds nowMs : Nat)
    (choices : Nat → GenChoice) (ins : Nat → Option String)
    (retries : Nat) (s : DBState) : Except String GenOk × DBState × Nat :=
  if retries < MAX_RETRIES then
    let c := choices retries
    let coreToken := generateRandomToken 8 c.corePick
    let tokenIdPrefix := generateRandomToken 4 c.prefixPick
    let plaintextToken := tokenIdPrefix ++ '-' :: coreToken
    let tokenHash := hashToken pepper plaintextToken c.salt
    let expiresAt := nowMs + expirySeconds * 1000
    match ins retries with
    | none =>
      let tokenRecord : Token :=
        { id := s.nextId, account_id := accountId, amount := amount
          token_hash := tokenHash, salt := c.salt, pfx := tokenIdPrefix
          status := TokenStatus.ACTIVE, expires_at := expiresAt, used_at := none }
      (Except.ok ⟨s.nextId, plaintextToken, amount, expiresAt⟩,
       { s with tokens := s.tokens ++ [tokenRecord], nextId := s.nextId + 1 },
       retries + 1)
    | some code =>
      if code = "23505" then
        if retries + 1 ≥ MAX_RETRIES then
          (Except.error "Failed to generate unique token after maximum retries",
           s, retries + 1)
        else
          generateLoop pepper accountId amount expirySeconds nowMs choices ins
            (retries + 1) s
      else
        (Except.error code, s, retries + 1)
  else
    -- unreachable from retries = 0: the JS loop cannot fall through
    (Except.error "undefined", s, retries)
termination_by MAX_RETRIES - retries
decreasing_by
  simp [MAX_RETRIES] at *
  omega

/-- `generateWithdrawalToken(accountId, amount)`: validate, then run the
collision-retry loop. -/
def generateWithdrawalToken (pepper accountId : String) (amount : ℚ)
    (expirySeconds nowMs : Nat) (choices : Nat → GenChoice)
    (ins : Nat → Option String) (s : DBState) : Except String GenOk × DBState × Nat :=
  match validateGenerationParams accountId amount with
  | some msg => (Except.error ("Invalid token generation params: " ++ msg), s, 0)
  | none =>
    generateLoop pepper accountId amount expirySeconds nowMs choices ins 0 s

/-- The Step 0 guard actually implemented by the code: raw token nonempty,
contains a dash, agent id nonempty, and the first two segments of
`split('-')` have lengths 4 and 8 (later segments are not examined). -/
def step0Ok (fullToken : List Char) (agentId : String) : Bool :=
  !(decide (fullToken = [] ∨ fullToken.contains '-' = false ∨ agentId = "")) &&
  !(decide (((splitDash fullToken).getD 0 []).length ≠ 4 ∨
            ((splitDash fullToken).getD 1 []).length ≠ 8))

/-- `parseToken` as worded by the specification: split on the FIRST dash
only; accept exactly when two segments result, of lengths 4 and 8. -/
def parseTokenSpec (raw : List Char) : Option (List Char × List Char) :=
  if raw.contains '-' = false then none
  else
    let p := raw.takeWhile (fun c => c ≠ '-')
    let c := (raw.dropWhile (fun c => c ≠ '-')).tail
    if p.length = 4 ∧ c.length = 8 then some (p, c) else none

/-- The first row with a given token id (primary-key lookup). -/
def rowOf (i : Nat) (s : DBState) : Option Token :=
  s.tokens.find? fun t => t.id == i

/-- Token ids referenced by WITHDRAWAL/SUCCESS ledger rows. -/
def ledgerTokenIds (s : DBState) : List Nat :=
  (s.transactions.filter fun r => r.type == "WITHDRAWAL" && r.status == "SUCCESS").map
    LedgerRow.token_id

/-- Store well-formedness: token ids are unique (primary key), every
WITHDRAWAL/SUCCESS ledger row references a USED token, and no token id is
referenced by two WITHDRAWAL/SUCCESS rows. -/
def WF (s : DBState) : Prop :=
  (s.tokens.map Token.id).Nodup ∧
  (∀ r ∈ s.transactions, r.type = "WITHDRAWAL" → r.status = "SUCCESS" →
    ∃ t, t ∈ s.tokens ∧ t.id = r.token_id ∧ t.status = TokenStatus.USED) ∧
  (ledgerTokenIds s).Nodup

/-- Whether a result is a SUCCESS naming token id `i`. -/
def isSuccessFor (i : Nat) (r : RedeemResult) : Bool :=
  match r with
  | RedeemResult.SUCCESS j _ => j == i
  | _ => false

/-- Number of SUCCESS results for a given token id in a result list. -/
def successCount (i : Nat) (rs : List RedeemResult) : Nat :=
  rs.countP (isSuccessFor i)

/-- The arguments of one redemption call in a sequence. -/
structure RedeemCall where
  fullToken : List Char
  agentId : String
  metadata : String
  now1 : Nat
  now2 : Nat
  abort : Bool

/-- Run a sequence of redemption calls, threading the store state. -/
def runCalls (pepper : String) : List RedeemCall → DBState → List RedeemResult × DBState
  | [], s => ([], s)
  | c :: cs, s =>
    let out := redeemWithdrawalToken pepper c.fullToken c.agentId c.metadata
      c.now1 c.now2 c.abort s
    let rest := runCalls pepper cs out.state
    (out.res :: rest.1, rest.2)

/-- The state produced by a successful redemption of token `m`. -/
def successState (s : DBState) (m : Token) (ag md : String) (n2 : Nat) : DBState :=
  { tokens := s.tokens.map (markUsed m.id n2)
    transactions := s.transactions ++
      [⟨s.nextId, m.account_id, m.id, "WITHDRAWAL", m.amount, "SUCCESS"⟩]
    redemption_attempts := s.redemption_attempts ++ [⟨m.id, ag, "SUCCESS", md⟩]
    nextId := s.nextId + 1 }

/-- No token row with the given id is ACTIVE. -/
def notActive (i : Nat) (s : DBState) : Prop :=
  ∀ t ∈ s.tokens, t.id = i → t.status ≠ TokenStatus.ACTIVE

/-- The plaintext token built by generation attempt `k` (prefix-core). -/
def genPlaintext (choices : Nat → GenChoice) (k : Nat) : List Char :=
  generateRandomToken 4 (choices k).prefixPick ++ '-' ::
    generateRandomToken 8 (choices k).corePick

/-- The token row inserted by generation attempt `k`. -/
def genRecord (pepper accountId : String) (amount : ℚ)
    (expirySeconds nowMs : Nat) (choices : Nat → GenChoice) (k : Nat)
    (s : DBState) : Token :=
  { id := s.nextId, account_id := accountId, amount := amount
    token_hash := hashToken pepper (genPlaintext choices k) (choices k).salt
    salt := (choices k).salt
    pfx := generateRandomToken 4 (choices k).prefixPick
    status := TokenStatus.ACTIVE
    expires_at := nowMs + expirySeconds * 1000
    used_at := none }

/-! Concrete fixtures used to instantiate the theorems. -/

/-- A well-formed plaintext token (prefix CCCC, core FFFFFFFF). -/
def tokCF : List Char := "CCCC-FFFFFFFF".toList

/-- An ACTIVE token row matching `tokCF` (salt 7, expiry 5). -/
def tokenA : Token :=
  ⟨0, "acct-1", 100, hashToken "pep" tokCF 7, 7, "CCCC".toList,
   TokenStatus.ACTIVE, 5, none⟩

/-- A store holding just `tokenA`. -/
def stateA : DBState := ⟨[tokenA], [], [], 1⟩

/-- The same row already USED. -/
def tokenU : Token :=
  ⟨0, "acct-1", 100, hashToken "pep" tokCF 7, 7, "CCCC".toList,
   TokenStatus.USED, 5, some 3⟩

/-- A store holding just `tokenU`. -/
def stateU : DBState := ⟨[tokenU], [], [], 1⟩

end Cardless

namespace Cardless

/-! ### Basic lemmas about the codec -/

theorem charAt_ne_dash : ∀ i : Fin 36, charAt i ≠ '-' := by decide

theorem generateRandomToken_length (n : Nat) (pick : Nat → Fin 36) :
    (generateRandomToken n pick).length = n := by
  simp [generateRandomToken]

theorem dash_not_mem_generateRandomToken (n : Nat) (pick : Nat → Fin 36) :
    ¬ '-' ∈ generateRandomToken n pick := by
  simp only [generateRandomToken, List.mem_map, not_exists]
  intro i h
  exact charAt_ne_dash (pick i) h.2

theorem splitDash_of_no_dash (l : List Char) (h : ¬ '-' ∈ l) : splitDash l = [l] := by
  induction l with
  | nil => rfl
  | cons c rest ih =>
    simp only [List.mem_cons, not_or] at h
    rw [splitDash, if_neg (fun hc => h.1 hc.symm), ih h.2]

theorem splitDash_pair (p c : List Char) (hp : ¬ '-' ∈ p) (hc : ¬ '-' ∈ c) :
    splitDash (p ++ '-' :: c) = [p, c] := by
  induction p with
  | nil =>
    simp only [List.nil_append]
    rw [splitDash, if_pos rfl, splitDash_of_no_dash c hc]
  | cons a p ih =>
    simp only [List.mem_cons, not_or] at hp
    simp only [List.cons_append]
    rw [splitDash, if_neg (fun hc' => hp.1 hc'.symm), ih hp.2]

end Cardless

namespace Cardless

/-! ### Store lemmas -/

theorem find?_id_eq_of_nodup (l : List Token) (m : Token)
    (hnd : (l.map Token.id).Nodup) (hm : m ∈ l) :
    l.find? (fun t => t.id == m.id) = some m := by
  induction l with
  | nil => cases hm
  | cons a l ih =>
    rw [List.map_cons] at hnd
    rcases List.nodup_cons.mp hnd with ⟨ha, hl⟩
    rcases List.mem_cons.mp hm with rfl | hmem
    · exact List.find?_cons_of_pos _ (by simp)
    · have hne : a.id ≠ m.id := by
        intro h
        exact ha (h ▸ List.mem_map_of_mem Token.id hmem)
      rw [List.find?_cons_of_neg _ (by simpa using hne)]
      exact ih hl hmem

theorem markUsed_id (i n : Nat) (t : Token) : (markUsed i n t).id = t.id := by
  unfold markUsed
  split <;> rfl

theorem markUsed_of_not_active (i n : Nat) (t : Token)
    (h : t.status ≠ TokenStatus.ACTIVE) : markUsed i n t = t := by
  unfold markUsed
  split
  · next hcond => exact absurd hcond.2 h
  · rfl

theorem matchedCandidate_spec (pepper : String) (fullToken pre : List Char)
    (now1 : Nat) (s : DBState) (m : Token)
    (h : matchedCandidate pepper fullToken pre now1 s = some m) :
    m ∈ s.tokens ∧ m.pfx = pre ∧ m.status = TokenStatus.ACTIVE ∧
      now1 < m.expires_at ∧ hashToken pepper fullToken m.salt = m.token_hash := by
  unfold matchedCandidate at h
  have hmem := List.mem_of_find?_eq_some h
  have hfind := List.find?_some h
  rcases List.mem_filter.mp hmem with ⟨hmem', hflt⟩
  simp only [Bool.and_eq_true, beq_iff_eq, decide_eq_true_eq] at hflt
  refine ⟨hmem', hflt.1.1, hflt.1.2, hflt.2, ?_⟩
  simpa using hfind

end Cardless

namespace Cardless

theorem redeem_eq (pepper : String) (ft : List Char) (ag md : String)
    (n1 n2 : Nat) (abort : Bool) (s : DBState) :
    redeemWithdrawalToken pepper ft ag md n1 n2 abort s =
      if step0Ok ft ag then
        dbTransaction abort s
          (redeemBody pepper ft ag md ((splitDash ft).getD 0 []) n1 n2 s)
      else ⟨.INVALID, s, []⟩ := by
  have hstep : (step0Ok ft ag = true) ↔
      (¬(ft = [] ∨ ft.contains '-' = false ∨ ag = "") ∧
       ¬(((splitDash ft).getD 0 []).length ≠ 4 ∨
         ((splitDash ft).getD 1 []).length ≠ 8)) := by
    unfold step0Ok
    simp only [Bool.and_eq_true, Bool.not_eq_true', decide_eq_false_iff_not]
  unfold redeemWithdrawalToken
  by_cases h1 : ft = [] ∨ ft.contains '-' = false ∨ ag = ""
  · rw [if_pos h1, if_neg (fun hs => (hstep.mp hs).1 h1)]
  · rw [if_neg h1]
    by_cases h2 : ((splitDash ft).getD 0 []).length ≠ 4 ∨
        ((splitDash ft).getD 1 []).length ≠ 8
    · rw [if_pos h2, if_neg (fun hs => (hstep.mp hs).2 h2)]
    · rw [if_neg h2, if_pos (hstep.mpr ⟨h1, h2⟩)]

theorem redeemBody_none (pepper : String) (ft pre : List Char) (ag md : String)
    (n1 n2 : Nat) (s : DBState)
    (h : matchedCandidate pepper ft pre n1 s = none) :
    redeemBody pepper ft ag md pre n1 n2 s = (.INVALID, s, [.query]) := by
  unfold redeemBody
  rw [h]

theorem redeemBody_matched (pepper : String) (ft pre : List Char) (ag md : String)
    (n1 n2 : Nat) (s : DBState) (m : Token)
    (hnd : (s.tokens.map Token.id).Nodup)
    (h : matchedCandidate pepper ft pre n1 s = some m) :
    redeemBody pepper ft ag md pre n1 n2 s =
      if m.expires_at ≤ n2 then (.EXPIRED_OR_USED, s, [.query, .lockRow])
      else
        (.SUCCESS m.id s.nextId, successState s m ag md n2,
         [.query, .lockRow, .updateRow, .insertLedger, .insertAttempt]) := by
  obtain ⟨hmem, hpfx, hact, hlt, hhash⟩ := matchedCandidate_spec pepper ft pre n1 s m h
  unfold redeemBody
  rw [h]
  dsimp only
  rw [find?_id_eq_of_nodup s.tokens m hnd hmem]
  dsimp only
  by_cases hexp : m.expires_at ≤ n2
  · rw [if_pos (Or.inr hexp), if_pos hexp]
  · rw [if_neg (by simp [hact, hexp]), if_neg hexp]
    rfl

/-- Full case analysis of one redemption call, over a store with unique
token ids: either the call leaves the store untouched and does not return
SUCCESS, or it matched an ACTIVE, unexpired token `m` and commits exactly
the three writes of Step 4. -/
theorem redeem_cases (pepper : String) (ft : List Char) (ag md : String)
    (n1 n2 : Nat) (abort : Bool) (s : DBState)
    (hnd : (s.tokens.map Token.id).Nodup) :
    ((redeemWithdrawalToken pepper ft ag md n1 n2 abort s).state = s ∧
      ∀ i tx, (redeemWithdrawalToken pepper ft ag md n1 n2 abort s).res ≠
        .SUCCESS i tx) ∨
    (∃ m, matchedCandidate pepper ft ((splitDash ft).getD 0 []) n1 s = some m ∧
      m ∈ s.tokens ∧ m.status = TokenStatus.ACTIVE ∧ n1 < m.expires_at ∧
      n2 < m.expires_at ∧
      (redeemWithdrawalToken pepper ft ag md n1 n2 abort s).res =
        .SUCCESS m.id s.nextId ∧
      (redeemWithdrawalToken pepper ft ag md n1 n2 abort s).state =
        successState s m ag md n2) := by
  rw [redeem_eq]
  by_cases h0 : step0Ok ft ag
  · rw [if_pos h0]
    unfold dbTransaction
    cases abort with
    | true => exact Or.inl ⟨rfl, by intro i tx; simp⟩
    | false =>
      cases hm : matchedCandidate pepper ft ((splitDash ft).getD 0 []) n1 s with
      | none =>
        rw [redeemBody_none pepper ft _ ag md n1 n2 s hm]
        exact Or.inl ⟨rfl, by intro i tx; simp⟩
      | some m =>
        obtain ⟨hmem, hpfx, hact, hlt, hhash⟩ :=
          matchedCandidate_spec pepper ft _ n1 s m hm
        rw [redeemBody_matched pepper ft _ ag md n1 n2 s m hnd hm]
        by_cases hexp : m.expires_at ≤ n2
        · rw [if_pos hexp]
          exact Or.inl ⟨rfl, by intro i tx; simp⟩
        · rw [if_neg hexp]
          exact Or.inr ⟨m, rfl, hmem, hact, hlt, Nat.lt_of_not_le hexp, rfl, rfl⟩
  · rw [if_neg h0]
    exact Or.inl ⟨rfl, by intro i tx; simp⟩

end Cardless

namespace Cardless

/-! ### Invariant preservation -/

theorem successState_tokens_map_id (s : DBState) (m : Token) (ag md : String)
    (n2 : Nat) :
    (successState s m ag md n2).tokens.map Token.id = s.tokens.map Token.id := by
  simp only [successState, List.map_map]
  exact List.map_congr_left fun t _ => markUsed_id m.id n2 t

theorem ledgerTokenIds_successState (s : DBState) (m : Token) (ag md : String)
    (n2 : Nat) :
    ledgerTokenIds (successState s m ag md n2) = ledgerTokenIds s ++ [m.id] := by
  simp [ledgerTokenIds, successState, List.filter_append]

theorem eq_of_mem_id (l : List Token) (hnd : (l.map Token.id).Nodup)
    (t u : Token) (ht : t ∈ l) (hu : u ∈ l) (h : t.id = u.id) : t = u :=
  List.inj_on_of_nodup_map hnd ht hu h

theorem id_not_in_ledger (s : DBState) (hWF : WF s) (m : Token)
    (hmem : m ∈ s.tokens) (hact : m.status = TokenStatus.ACTIVE) :
    ¬ m.id ∈ ledgerTokenIds s := by
  intro hin
  obtain ⟨hnd, href, hled⟩ := hWF
  rcases List.mem_map.mp hin with ⟨r, hr, hrid⟩
  rcases List.mem_filter.mp hr with ⟨hrmem, hrprop⟩
  simp only [Bool.and_eq_true, beq_iff_eq] at hrprop
  obtain ⟨t, htmem, htid, htused⟩ := href r hrmem hrprop.1 hrprop.2
  have het : t = m :=
    eq_of_mem_id s.tokens hnd t m htmem hmem (by rw [htid, hrid])
  rw [het] at htused
  exact absurd (hact.symm.trans htused) (by decide)

theorem WF_successState (s : DBState) (m : Token) (ag md : String) (n2 : Nat)
    (hWF : WF s) (hmem : m ∈ s.tokens) (hact : m.status = TokenStatus.ACTIVE) :
    WF (successState s m ag md n2) := by
  obtain ⟨hnd, href, hled⟩ := hWF
  refine ⟨?_, ?_, ?_⟩
  · rw [successState_tokens_map_id]
    exact hnd
  · intro r hr hty hst
    rcases List.mem_append.mp hr with hold | hnew
    · obtain ⟨t, htmem, htid, htused⟩ := href r hold hty hst
      have ht' : markUsed m.id n2 t = t :=
        markUsed_of_not_active _ _ _ (by rw [htused]; decide)
      exact ⟨t, by
        show t ∈ (successState s m ag md n2).tokens
        rw [← ht']
        exact List.mem_map_of_mem _ htmem, htid, htused⟩
    · have hrw : r = ⟨s.nextId, m.account_id, m.id, "WITHDRAWAL", m.amount, "SUCCESS"⟩ :=
        List.mem_singleton.mp hnew
      subst hrw
      refine ⟨markUsed m.id n2 m, List.mem_map_of_mem _ hmem, ?_, ?_⟩
      · rw [markUsed_id]
      · unfold markUsed
        rw [if_pos ⟨rfl, hact⟩]
  · rw [ledgerTokenIds_successState, List.nodup_append]
    refine ⟨hled, List.nodup_singleton _, ?_⟩
    intro a ha hb
    rw [List.mem_singleton.mp hb] at ha
    exact id_not_in_ledger s ⟨hnd, href, hled⟩ m hmem hact ha

theorem rowOf_successState (s : DBState) (m : Token) (ag md : String) (n2 i : Nat) :
    rowOf i (successState s m ag md n2) = (rowOf i s).map (markUsed m.id n2) := by
  have hp : ((fun t : Token => t.id == i) ∘ markUsed m.id n2) =
      fun t : Token => t.id == i := by
    funext t
    simp [Function.comp, markUsed_id]
  simp only [rowOf, successState]
  rw [List.find?_map, hp]

theorem notActive_successState (s : DBState) (m : Token) (ag md : String)
    (n2 i : Nat) (h : notActive i s) : notActive i (successState s m ag md n2) := by
  intro t ht hid
  rcases List.mem_map.mp ht with ⟨u, hu, rfl⟩
  rw [markUsed_id] at hid
  by_cases hc : u.id = m.id ∧ u.status = TokenStatus.ACTIVE
  · unfold markUsed
    rw [if_pos hc]
    dsimp only
    decide
  · unfold markUsed
    rw [if_neg hc]
    exact h u hu hid

theorem notActive_successState_self (s : DBState) (m : Token) (ag md : String)
    (n2 : Nat) (hnd : (s.tokens.map Token.id).Nodup) (hmem : m ∈ s.tokens) :
    notActive m.id (successState s m ag md n2) := by
  intro t ht hid
  rcases List.mem_map.mp ht with ⟨u, hu, rfl⟩
  rw [markUsed_id] at hid
  have huid : u = m := eq_of_mem_id s.tokens hnd u m hu hmem hid
  subst huid
  unfold markUsed
  by_cases hc : u.id = u.id ∧ u.status = TokenStatus.ACTIVE
  · rw [if_pos hc]
    dsimp only
    decide
  · rw [if_neg hc]
    intro hact
    exact hc ⟨rfl, hact⟩

end Cardless

namespace Cardless

/-! ### Single-step corollaries -/

theorem WF_redeem (pepper : String) (ft : List Char) (ag md : String)
    (n1 n2 : Nat) (abort : Bool) (s : DBState) (hWF : WF s) :
    WF (redeemWithdrawalToken pepper ft ag md n1 n2 abort s).state := by
  rcases redeem_cases pepper ft ag md n1 n2 abort s hWF.1 with
    ⟨hst, _⟩ | ⟨m, _, hmem, hact, _, _, _, hst⟩
  · rw [hst]
    exact hWF
  · rw [hst]
    exact WF_successState s m ag md n2 hWF hmem hact

theorem succPred_eq_false (r : RedeemResult) (i : Nat)
    (h : ∀ tx, r ≠ .SUCCESS i tx) : isSuccessFor i r = false := by
  cases r with
  | SUCCESS j tx =>
    simp only [isSuccessFor, beq_eq_false_iff_ne, ne_eq]
    intro hj
    exact h tx (by rw [hj])
  | INVALID => rfl
  | EXPIRED_OR_USED => rfl
  | ERROR => rfl

theorem notActive_redeem (pepper : String) (ft : List Char) (ag md : String)
    (n1 n2 : Nat) (abort : Bool) (s : DBState) (i : Nat)
    (hWF : WF s) (h : notActive i s) :
    notActive i (redeemWithdrawalToken pepper ft ag md n1 n2 abort s).state ∧
    ∀ tx, (redeemWithdrawalToken pepper ft ag md n1 n2 abort s).res ≠
      .SUCCESS i tx := by
  rcases redeem_cases pepper ft ag md n1 n2 abort s hWF.1 with
    ⟨hst, hns⟩ | ⟨m, _, hmem, hact, _, _, hres, hst⟩
  · rw [hst]
    exact ⟨h, fun tx => hns i tx⟩
  · constructor
    · rw [hst]
      exact notActive_successState s m ag md n2 i h
    · intro tx hcon
      have hinj := hres.symm.trans hcon
      injection hinj with h1 h2
      exact h m hmem h1 hact

theorem rowOf_redeem_preserved (pepper : String) (ft : List Char) (ag md : String)
    (n1 n2 : Nat) (abort : Bool) (s : DBState) (i : Nat) (t : Token)
    (hWF : WF s) (h : rowOf i s = some t) (hna : t.status ≠ TokenStatus.ACTIVE) :
    rowOf i (redeemWithdrawalToken pepper ft ag md n1 n2 abort s).state = some t := by
  rcases redeem_cases pepper ft ag md n1 n2 abort s hWF.1 with
    ⟨hst, _⟩ | ⟨m, _, _, _, _, _, _, hst⟩
  · rw [hst]
    exact h
  · rw [hst, rowOf_successState, h]
    simp [markUsed_of_not_active _ _ _ hna]

theorem notActive_of_mem (s : DBState) (t : Token)
    (hnd : (s.tokens.map Token.id).Nodup) (ht : t ∈ s.tokens)
    (hna : t.status ≠ TokenStatus.ACTIVE) : notActive t.id s := by
  intro u hu huid
  have := eq_of_mem_id s.tokens hnd u t hu ht huid
  subst this
  exact hna

/-! ### Sequence lemmas -/

theorem runCalls_cons_fst (pepper : String) (c : RedeemCall) (cs : List RedeemCall)
    (s : DBState) :
    (runCalls pepper (c :: cs) s).1 =
      (redeemWithdrawalToken pepper c.fullToken c.agentId c.metadata
        c.now1 c.now2 c.abort s).res ::
      (runCalls pepper cs (redeemWithdrawalToken pepper c.fullToken c.agentId
        c.metadata c.now1 c.now2 c.abort s).state).1 := by
  simp [runCalls]

theorem runCalls_cons_snd (pepper : String) (c : RedeemCall) (cs : List RedeemCall)
    (s : DBState) :
    (runCalls pepper (c :: cs) s).2 =
      (runCalls pepper cs (redeemWithdrawalToken pepper c.fullToken c.agentId
        c.metadata c.now1 c.now2 c.abort s).state).2 := by
  simp [runCalls]

theorem runCalls_WF (pepper : String) (calls : List RedeemCall) (s : DBState)
    (hWF : WF s) : WF (runCalls pepper calls s).2 := by
  induction calls generalizing s with
  | nil => exact hWF
  | cons c cs ih =>
    rw [runCalls_cons_snd]
    exact ih _ (WF_redeem pepper c.fullToken c.agentId c.metadata
      c.now1 c.now2 c.abort s hWF)

theorem runCalls_notActive (pepper : String) (calls : List RedeemCall)
    (s : DBState) (i : Nat) (hWF : WF s) (h : notActive i s) :
    successCount i (runCalls pepper calls s).1 = 0 ∧
    notActive i (runCalls pepper calls s).2 := by
  induction calls generalizing s with
  | nil => exact ⟨rfl, h⟩
  | cons c cs ih =>
    obtain ⟨h1, h2⟩ := notActive_redeem pepper c.fullToken c.agentId c.metadata
      c.now1 c.now2 c.abort s i hWF h
    have hWF' := WF_redeem pepper c.fullToken c.agentId c.metadata
      c.now1 c.now2 c.abort s hWF
    obtain ⟨hcnt, hna⟩ := ih _ hWF' h1
    rw [runCalls_cons_fst, runCalls_cons_snd]
    refine ⟨?_, hna⟩
    rw [successCount, List.countP_cons, succPred_eq_false _ _ h2]
    rw [successCount] at hcnt
    simpa using hcnt

theorem successCount_le_one (pepper : String) (calls : List RedeemCall)
    (s : DBState) (i : Nat) (hWF : WF s) :
    successCount i (runCalls pepper calls s).1 ≤ 1 := by
  induction calls generalizing s with
  | nil => exact Nat.zero_le 1
  | cons c cs ih =>
    have hWF' := WF_redeem pepper c.fullToken c.agentId c.metadata
      c.now1 c.now2 c.abort s hWF
    rw [runCalls_cons_fst, successCount, List.countP_cons]
    by_cases hp : isSuccessFor i
        (redeemWithdrawalToken pepper c.fullToken c.agentId c.metadata
          c.now1 c.now2 c.abort s).res = true
    · rcases redeem_cases pepper c.fullToken c.agentId c.metadata
          c.now1 c.now2 c.abort s hWF.1 with
        ⟨hst, hns⟩ | ⟨m, _, hmem, hact, _, _, hres, hst⟩
      · rw [succPred_eq_false _ _ (fun tx => hns i tx)] at hp
        cases hp
      · have him : m.id = i := by
          rw [hres] at hp
          simpa [isSuccessFor] using hp
        have hna : notActive i
            (redeemWithdrawalToken pepper c.fullToken c.agentId c.metadata
              c.now1 c.now2 c.abort s).state := by
          rw [hst, ← him]
          exact notActive_successState_self s m c.agentId c.metadata c.now2
            hWF.1 hmem
        have hz := (runCalls_notActive pepper cs _ i hWF' hna).1
        rw [successCount] at hz
        rw [hp, hz]
        simp
    · rw [Bool.not_eq_true] at hp
      rw [hp]
      have := ih _ hWF'
      rw [successCount] at this
      simpa using this

theorem success_not_mem_of_countP_zero (i : Nat) (rs : List RedeemResult)
    (h : rs.countP (isSuccessFor i) = 0) (tx : Nat) :
    ¬ RedeemResult.SUCCESS i tx ∈ rs := by
  intro hmem
  have := (List.countP_eq_zero.mp h) _ hmem
  simp [isSuccessFor] at this

end Cardless

namespace Cardless

theorem runCalls_rowOf (pepper : String) (calls : List RedeemCall) (s : DBState)
    (i : Nat) (t : Token) (hWF : WF s) (h : rowOf i s = some t)
    (hna : t.status ≠ TokenStatus.ACTIVE) :
    rowOf i (runCalls pepper calls s).2 = some t := by
  induction calls generalizing s with
  | nil => exact h
  | cons c cs ih =>
    rw [runCalls_cons_snd]
    exact ih _ (WF_redeem pepper c.fullToken c.agentId c.metadata
        c.now1 c.now2 c.abort s hWF)
      (rowOf_redeem_preserved pepper c.fullToken c.agentId c.metadata
        c.now1 c.now2 c.abort s i t hWF h hna)

/-- C1: single-use redemption.  Over any sequence of redemption calls on a
well-formed store, every token id is named by at most one SUCCESS result; a
token row that is not ACTIVE (USED or EXPIRED) is never modified and never
yields SUCCESS; and the ledger never holds two WITHDRAWAL/SUCCESS rows for
the same token id. -/
theorem single_use_redemption (pepper : String) (calls : List RedeemCall)
    (s : DBState) (hWF : WF s) :
    (∀ i, successCount i (runCalls pepper calls s).1 ≤ 1) ∧
    (∀ t, t ∈ s.tokens → t.status ≠ TokenStatus.ACTIVE →
      rowOf t.id (runCalls pepper calls s).2 = some t ∧
      ∀ tx, ¬ RedeemResult.SUCCESS t.id tx ∈ (runCalls pepper calls s).1) ∧
    (ledgerTokenIds (runCalls pepper calls s).2).Nodup := by
  refine ⟨fun i => successCount_le_one pepper calls s i hWF, ?_,
    (runCalls_WF pepper calls s hWF).2.2⟩
  intro t ht hna
  have hnd := hWF.1
  have hrow : rowOf t.id s = some t := find?_id_eq_of_nodup s.tokens t hnd ht
  refine ⟨runCalls_rowOf pepper calls s t.id t hWF hrow hna, ?_⟩
  have hz := (runCalls_notActive pepper calls s t.id hWF
    (notActive_of_mem s t hnd ht hna)).1
  rw [successCount] at hz
  exact success_not_mem_of_countP_zero t.id _ hz

/-- Witness for C1 at a concrete store holding one USED token and a call
sequence that presents its plaintext twice. -/
theorem single_use_redemption_witness :
    WF stateU ∧
    ((∀ i, successCount i (runCalls "pep"
        [⟨tokCF, "atm-1", "", 1, 1, false⟩, ⟨tokCF, "atm-1", "", 2, 2, false⟩]
        stateU).1 ≤ 1) ∧
     (∀ t, t ∈ stateU.tokens → t.status ≠ TokenStatus.ACTIVE →
       rowOf t.id (runCalls "pep"
          [⟨tokCF, "atm-1", "", 1, 1, false⟩, ⟨tokCF, "atm-1", "", 2, 2, false⟩]
          stateU).2 = some t ∧
       ∀ tx, ¬ RedeemResult.SUCCESS t.id tx ∈ (runCalls "pep"
          [⟨tokCF, "atm-1", "", 1, 1, false⟩, ⟨tokCF, "atm-1", "", 2, 2, false⟩]
          stateU).1) ∧
     (ledgerTokenIds (runCalls "pep"
        [⟨tokCF, "atm-1", "", 1, 1, false⟩, ⟨tokCF, "atm-1", "", 2, 2, false⟩]
        stateU).2).Nodup) := by
  have hWF : WF stateU := by
    unfold WF
    refine ⟨by decide, ?_, by decide⟩
    intro r hr
    cases hr
  exact ⟨hWF, single_use_redemption "pep"
    [⟨tokCF, "atm-1", "", 1, 1, false⟩, ⟨tokCF, "atm-1", "", 2, 2, false⟩]
    stateU hWF⟩

end Cardless

namespace Cardless

/-- C10: if the agent id is absent or empty (JS falsy, modelled as the
empty string), redeemWithdrawalToken returns INVALID immediately: the
store state is untouched and the event trace is empty — no transaction is
opened and no storage access happens — even when the raw token itself is
well-formed. -/
theorem agentId_guard (pepper : String) (fullToken : List Char)
    (metadata : String) (now1 now2 : Nat) (abort : Bool) (s : DBState) :
    redeemWithdrawalToken pepper fullToken "" metadata now1 now2 abort s =
      ⟨.INVALID, s, []⟩ := by
  unfold redeemWithdrawalToken
  rw [if_pos (Or.inr (Or.inr rfl))]

/-- C6: expiry enforcement.  A token presented strictly after its
`expires_at` (the clock of the candidate lookup is past expiry) never
yields SUCCESS, whether or not it was ever redeemed. -/
theorem expiry_enforcement (pepper : String) (ft : List Char) (ag md : String)
    (n1 n2 : Nat) (abort : Bool) (s : DBState) (t : Token)
    (hnd : (s.tokens.map Token.id).Nodup) (ht : t ∈ s.tokens)
    (hlate : t.expires_at < n1) :
    ∀ tx, (redeemWithdrawalToken pepper ft ag md n1 n2 abort s).res ≠
      RedeemResult.SUCCESS t.id tx := by
  intro tx hcon
  rcases redeem_cases pepper ft ag md n1 n2 abort s hnd with
    ⟨_, hns⟩ | ⟨m, _, hmem, _, hlt1, _, hres, _⟩
  · exact hns t.id tx hcon
  · have hinj := hres.symm.trans hcon
    injection hinj with h1 _
    have hmt : m = t := eq_of_mem_id s.tokens hnd m t hmem ht h1
    rw [hmt] at hlt1
    omega

/-- Witness for C6: the concrete ACTIVE token expiring at 5, presented at
time 6, is not successfully redeemed. -/
theorem expiry_enforcement_witness :
    ((stateA.tokens.map Token.id).Nodup ∧ tokenA ∈ stateA.tokens ∧
      tokenA.expires_at < 6) ∧
    ∀ tx, (redeemWithdrawalToken "pep" tokCF "atm-1" "" 6 6 false stateA).res ≠
      RedeemResult.SUCCESS tokenA.id tx :=
  ⟨⟨by decide, by decide, by decide⟩,
   expiry_enforcement "pep" tokCF "atm-1" "" 6 6 false stateA tokenA
     (by decide) (by decide) (by decide)⟩

end Cardless

namespace Cardless

theorem redeem_abort_state (pepper : String) (ft : List Char) (ag md : String)
    (n1 n2 : Nat) (s : DBState) :
    (redeemWithdrawalToken pepper ft ag md n1 n2 true s).state = s := by
  rw [redeem_eq]
  by_cases h0 : step0Ok ft ag
  · rw [if_pos h0]
    rfl
  · rw [if_neg h0]

theorem redeem_success_full (pepper : String) (ft : List Char) (ag md : String)
    (n1 n2 : Nat) (s : DBState) (hnd : (s.tokens.map Token.id).Nodup)
    (i tx : Nat)
    (hres : (redeemWithdrawalToken pepper ft ag md n1 n2 false s).res =
      RedeemResult.SUCCESS i tx) :
    ∃ m, m ∈ s.tokens ∧ m.status = TokenStatus.ACTIVE ∧ m.id = i ∧
      tx = s.nextId ∧
      (redeemWithdrawalToken pepper ft ag md n1 n2 false s).state =
        successState s m ag md n2 ∧
      (redeemWithdrawalToken pepper ft ag md n1 n2 false s).trace =
        [.txBegin, .query, .lockRow, .updateRow, .insertLedger,
         .insertAttempt, .txCommit] := by
  by_cases h0 : step0Ok ft ag
  · rw [redeem_eq, if_pos h0] at hres ⊢
    unfold dbTransaction at hres ⊢
    cases hm : matchedCandidate pepper ft ((splitDash ft).getD 0 []) n1 s with
    | none =>
      rw [redeemBody_none pepper ft _ ag md n1 n2 s hm] at hres
      exact absurd hres (by simp)
    | some m =>
      obtain ⟨hmem, hpfx, hact, hlt, hhash⟩ :=
        matchedCandidate_spec pepper ft _ n1 s m hm
      rw [redeemBody_matched pepper ft _ ag md n1 n2 s m hnd hm] at hres ⊢
      by_cases hexp : m.expires_at ≤ n2
      · rw [if_pos hexp] at hres
        exact absurd hres (by simp)
      · rw [if_neg hexp] at hres ⊢
        simp only [if_neg (by simp : ¬ (false = true))] at hres ⊢
        injection hres with h1 h2
        exact ⟨m, hmem, hact, h1, h2.symm, rfl, rfl⟩
  · rw [redeem_eq, if_neg h0] at hres
    exact absurd hres (by simp)

end Cardless

namespace Cardless

/-- C5: atomic commit.  If the storage engine aborts the transaction, no
write is observable (state unchanged); and every SUCCESS redemption
applies the status update, the WITHDRAWAL/SUCCESS ledger insert and the
attempt-evidence insert together (the `successState`), with all three
write events strictly between txBegin and txCommit of one transaction. -/
theorem atomic_commit (pepper : String) (ft : List Char) (ag md : String)
    (n1 n2 : Nat) (s : DBState) (hnd : (s.tokens.map Token.id).Nodup) :
    (redeemWithdrawalToken pepper ft ag md n1 n2 true s).state = s ∧
    ∀ i tx, (redeemWithdrawalToken pepper ft ag md n1 n2 false s).res =
        RedeemResult.SUCCESS i tx →
      ∃ m, m ∈ s.tokens ∧ m.id = i ∧
        (redeemWithdrawalToken pepper ft ag md n1 n2 false s).state =
          successState s m ag md n2 ∧
        (redeemWithdrawalToken pepper ft ag md n1 n2 false s).trace =
          [.txBegin, .query, .lockRow, .updateRow, .insertLedger,
           .insertAttempt, .txCommit] := by
  refine ⟨redeem_abort_state pepper ft ag md n1 n2 s, ?_⟩
  intro i tx hres
  obtain ⟨m, hmem, _, hid, _, hst, htr⟩ :=
    redeem_success_full pepper ft ag md n1 n2 s hnd i tx hres
  exact ⟨m, hmem, hid, hst, htr⟩

/-- Witness for C5 at the concrete one-token store: the aborted call
leaves the store unchanged, and the successful call commits all three
writes. -/
theorem atomic_commit_witness :
    (stateA.tokens.map Token.id).Nodup ∧
    (redeemWithdrawalToken "pep" tokCF "atm-1" "" 1 2 true stateA).state =
      stateA ∧
    (redeemWithdrawalToken "pep" tokCF "atm-1" "" 1 2 false stateA).res =
      RedeemResult.SUCCESS 0 1 ∧
    (∃ m, m ∈ stateA.tokens ∧ m.id = 0 ∧
      (redeemWithdrawalToken "pep" tokCF "atm-1" "" 1 2 false stateA).state =
        successState stateA m "atm-1" "" 2 ∧
      (redeemWithdrawalToken "pep" tokCF "atm-1" "" 1 2 false stateA).trace =
        [.txBegin, .query, .lockRow, .updateRow, .insertLedger,
         .insertAttempt, .txCommit]) :=
  ⟨by decide,
   (atomic_commit "pep" tokCF "atm-1" "" 1 2 stateA (by decide)).1,
   by decide,
   (atomic_commit "pep" tokCF "atm-1" "" 1 2 stateA (by decide)).2 0 1
     (by decide)⟩

end Cardless

namespace Cardless

/-- C4 is false on the code: at the concrete store whose token expires at
time 5, a call that matches the candidate at lookup time 4 but re-checks
at time 5 returns EXPIRED_OR_USED, and the redemption_attempts table is
left unchanged — no attempt row records the matched, non-SUCCESS outcome. -/
theorem attempt_evidence_counterexample :
    (matchedCandidate "pep" tokCF "CCCC".toList 4 stateA).isSome = true ∧
    (redeemWithdrawalToken "pep" tokCF "atm-1" "md" 4 5 false stateA).res =
      RedeemResult.EXPIRED_OR_USED ∧
    (redeemWithdrawalToken "pep" tokCF "atm-1" "md" 4 5 false
      stateA).state.redemption_attempts = stateA.redemption_attempts := by
  refine ⟨by decide, by decide, by decide⟩

/-- C4 amended: a RedemptionAttempt row is inserted only on SUCCESS (with
result literal SUCCESS); every non-SUCCESS outcome — including a matched
candidate that fails the locked re-check — leaves the attempts table
unchanged. -/
theorem attempt_evidence_amended (pepper : String) (ft : List Char)
    (ag md : String) (n1 n2 : Nat) (abort : Bool) (s : DBState)
    (hnd : (s.tokens.map Token.id).Nodup) :
    (∀ i tx, (redeemWithdrawalToken pepper ft ag md n1 n2 abort s).res =
        RedeemResult.SUCCESS i tx →
      (redeemWithdrawalToken pepper ft ag md n1 n2 abort
        s).state.redemption_attempts =
        s.redemption_attempts ++ [⟨i, ag, "SUCCESS", md⟩]) ∧
    ((∀ i tx, (redeemWithdrawalToken pepper ft ag md n1 n2 abort s).res ≠
        RedeemResult.SUCCESS i tx) →
      (redeemWithdrawalToken pepper ft ag md n1 n2 abort
        s).state.redemption_attempts = s.redemption_attempts) := by
  rcases redeem_cases pepper ft ag md n1 n2 abort s hnd with
    ⟨hst, hns⟩ | ⟨m, _, _, _, _, _, hres, hst⟩
  · exact ⟨fun i tx h => absurd h (hns i tx), fun _ => by rw [hst]⟩
  · constructor
    · intro i tx h
      have hinj := hres.symm.trans h
      injection hinj with h1 _
      rw [hst, ← h1]
      rfl
    · intro hnone
      exact absurd hres (hnone m.id s.nextId)

/-- Witness for C4's amended statement at the concrete one-token store. -/
theorem attempt_evidence_amended_witness :
    (stateA.tokens.map Token.id).Nodup ∧
    ((∀ i tx, (redeemWithdrawalToken "pep" tokCF "atm-1" "md" 1 2 false
        stateA).res = RedeemResult.SUCCESS i tx →
      (redeemWithdrawalToken "pep" tokCF "atm-1" "md" 1 2 false
        stateA).state.redemption_attempts =
        stateA.redemption_attempts ++ [⟨i, "atm-1", "SUCCESS", "md"⟩]) ∧
     ((∀ i tx, (redeemWithdrawalToken "pep" tokCF "atm-1" "md" 1 2 false
        stateA).res ≠ RedeemResult.SUCCESS i tx) →
      (redeemWithdrawalToken "pep" tokCF "atm-1" "md" 1 2 false
        stateA).state.redemption_attempts = stateA.redemption_attempts)) :=
  ⟨by decide,
   attempt_evidence_amended "pep" tokCF "atm-1" "md" 1 2 false stateA
     (by decide)⟩

end Cardless

namespace Cardless

/-- C3 is false on the code: for a syntactically valid token presented
against the empty store, the event trace is [txBegin, query, txCommit] —
the candidate lookup (query) runs strictly inside the storage transaction
(after txBegin), and the transaction is opened although Step 3 (lockRow)
is never reached. -/
theorem transaction_scoping_counterexample :
    (redeemWithdrawalToken "pep" "AAAA-BBBBBBBB".toList "atm-1" "" 0 0 false
      DBState.empty).trace = [.txBegin, .query, .txCommit] ∧
    (redeemWithdrawalToken "pep" "AAAA-BBBBBBBB".toList "atm-1" "" 0 0 false
      DBState.empty).res = RedeemResult.INVALID := by
  refine ⟨by decide, by decide⟩

/-- C3 amended: the transaction is opened BEFORE the candidate lookup —
for every call passing Step 0 the trace starts txBegin :: query :: rest —
and the exclusive row lock is taken only after the lookup/verification,
exactly when a candidate matched. -/
theorem transaction_scoping_amended (pepper : String) (ft : List Char)
    (ag md : String) (n1 n2 : Nat) (s : DBState)
    (h0 : step0Ok ft ag = true) :
    ∃ rest, (redeemWithdrawalToken pepper ft ag md n1 n2 false s).trace =
      Ev.txBegin :: Ev.query :: rest ∧
      (Ev.lockRow ∈ rest ↔
        (matchedCandidate pepper ft ((splitDash ft).getD 0 []) n1
          s).isSome = true) := by
  rw [redeem_eq, if_pos h0]
  unfold dbTransaction
  simp only [if_neg (by simp : ¬ (false = true))]
  cases hm : matchedCandidate pepper ft ((splitDash ft).getD 0 []) n1 s with
  | none =>
    rw [redeemBody_none pepper ft _ ag md n1 n2 s hm]
    exact ⟨[.txCommit], rfl, by simp⟩
  | some m =>
    unfold redeemBody
    rw [hm]
    dsimp only
    cases hf : s.tokens.find? (fun t => t.id == m.id) with
    | none => exact ⟨[.lockRow, .txCommit], rfl, by simp⟩
    | some token =>
      dsimp only
      by_cases hchk : token.status ≠ TokenStatus.ACTIVE ∨ token.expires_at ≤ n2
      · rw [if_pos hchk]
        exact ⟨[.lockRow, .txCommit], rfl, by simp⟩
      · rw [if_neg hchk]
        exact ⟨[.lockRow, .updateRow, .insertLedger, .insertAttempt, .txCommit],
          rfl, by simp⟩

/-- Witness for C3's amended statement at a concrete passing call. -/
theorem transaction_scoping_amended_witness :
    step0Ok tokCF "atm-1" = true ∧
    ∃ rest, (redeemWithdrawalToken "pep" tokCF "atm-1" "" 1 2 false
        stateA).trace = Ev.txBegin :: Ev.query :: rest ∧
      (Ev.lockRow ∈ rest ↔
        (matchedCandidate "pep" tokCF ((splitDash tokCF).getD 0 []) 1
          stateA).isSome = true) :=
  ⟨by decide,
   transaction_scoping_amended "pep" tokCF "atm-1" "" 1 2 stateA (by decide)⟩

end Cardless

namespace Cardless

/-- C7 is false on the code: the input "AAAA-BBBBBBBB-C" has more than two
segments, so splitting on the first dash gives a second segment of length
10 and the spec-level parse rejects it; yet the code splits on every dash,
looks only at the first two segments (lengths 4 and 8), and proceeds into
the storage transaction and the candidate lookup instead of rejecting
before storage. -/
theorem step0_validation_counterexample :
    parseTokenSpec "AAAA-BBBBBBBB-C".toList = none ∧
    (redeemWithdrawalToken "pep" "AAAA-BBBBBBBB-C".toList "atm-1" "" 0 0 false
      DBState.empty).trace = [.txBegin, .query, .txCommit] := by
  refine ⟨by decide, by decide⟩

/-- C7 amended: redeemWithdrawalToken returns INVALID without opening a
transaction or touching storage unless the raw token is nonempty, contains
a dash, the agent id is nonempty, and the FIRST TWO segments of splitting
on every dash have lengths exactly 4 and 8 — segments beyond the second
are ignored, not rejected; whenever that guard passes, the storage
transaction is opened. -/
theorem step0_validation_amended (pepper : String) (ft : List Char)
    (ag md : String) (n1 n2 : Nat) (abort : Bool) (s : DBState) :
    (step0Ok ft ag = false →
      redeemWithdrawalToken pepper ft ag md n1 n2 abort s =
        ⟨.INVALID, s, []⟩) ∧
    (step0Ok ft ag = true →
      (redeemWithdrawalToken pepper ft ag md n1 n2 abort s).trace.head? =
        some Ev.txBegin) := by
  constructor
  · intro h
    rw [redeem_eq, if_neg (by rw [h]; exact Bool.false_ne_true)]
  · intro h
    rw [redeem_eq, if_pos h]
    unfold dbTransaction
    cases abort with
    | true => rfl
    | false => rfl

/-- Witness for C7's amended statement: a wrong-length token is rejected
with no storage access, and a well-formed token reaches the transaction. -/
theorem step0_validation_amended_witness :
    (step0Ok "AB-123".toList "atm-1" = false ∧
      redeemWithdrawalToken "pep" "AB-123".toList "atm-1" "" 0 0 false
        DBState.empty = ⟨.INVALID, DBState.empty, []⟩) ∧
    (step0Ok tokCF "atm-1" = true ∧
      (redeemWithdrawalToken "pep" tokCF "atm-1" "" 1 2 false
        stateA).trace.head? = some Ev.txBegin) :=
  ⟨⟨by decide,
    (step0_validation_amended "pep" "AB-123".toList "atm-1" "" 0 0 false
      DBState.empty).1 (by decide)⟩,
   ⟨by decide,
    (step0_validation_amended "pep" tokCF "atm-1" "" 1 2 false stateA).2
      (by decide)⟩⟩

end Cardless


namespace Cardless

/-! ### Generation-loop lemmas -/

theorem generateLoop_all_collide (pepper accountId : String) (amount : ℚ)
    (expirySeconds nowMs : Nat) (choices : Nat → GenChoice)
    (ins : Nat → Option String) (s : DBState) (retries : Nat)
    (hlt : retries < MAX_RETRIES)
    (h : ∀ k, retries ≤ k → k < MAX_RETRIES → ins k = some "23505") :
    generateLoop pepper accountId amount expirySeconds nowMs choices ins
      retries s =
      (Except.error "Failed to generate unique token after maximum retries", s,
       MAX_RETRIES) := by
  have h3 : MAX_RETRIES = 3 := rfl
  rw [h3] at hlt
  interval_cases retries
  · rw [generateLoop]
    simp only [h 0 (by omega) (by omega), MAX_RETRIES]
    norm_num
    rw [generateLoop]
    simp only [h 1 (by omega) (by omega), MAX_RETRIES]
    norm_num
    rw [generateLoop]
    simp only [h 2 (by omega) (by omega), MAX_RETRIES]
    norm_num
  · rw [generateLoop]
    simp only [h 1 (by omega) (by omega), MAX_RETRIES]
    norm_num
    rw [generateLoop]
    simp only [h 2 (by omega) (by omega), MAX_RETRIES]
    norm_num
  · rw [generateLoop]
    simp only [h 2 (by omega) (by omega), MAX_RETRIES]
    norm_num

end Cardless

namespace Cardless

theorem generateLoop_count_le (pepper accountId : String) (amount : ℚ)
    (expirySeconds nowMs : Nat) (choices : Nat → GenChoice)
    (ins : Nat → Option String) (s : DBState) (retries : Nat)
    (hle : retries ≤ MAX_RETRIES) :
    (generateLoop pepper accountId amount expirySeconds nowMs choices ins
      retries s).2.2 ≤ MAX_RETRIES := by
  have key : ∀ fuel r, MAX_RETRIES - r = fuel → r ≤ MAX_RETRIES →
      (generateLoop pepper accountId amount expirySeconds nowMs choices ins
        r s).2.2 ≤ MAX_RETRIES := by
    intro fuel
    induction fuel with
    | zero =>
      intro r hf hle2
      rw [generateLoop, if_neg (by omega)]
      dsimp only
      omega
    | succ f ih =>
      intro r hf hle2
      have hlt : r < MAX_RETRIES := by omega
      rw [generateLoop, if_pos hlt]
      cases hins : ins r with
      | none =>
        dsimp only
        omega
      | some code =>
        dsimp only
        by_cases hc : code = "23505"
        · rw [if_pos hc]
          by_cases hb : r + 1 ≥ MAX_RETRIES
          · rw [if_pos hb]
            dsimp only
            omega
          · rw [if_neg hb]
            exact ih (r + 1) (by omega) (by omega)
        · rw [if_neg hc]
          dsimp only
          omega
  exact key _ retries rfl hle

theorem generateLoop_error_at (pepper accountId : String) (amount : ℚ)
    (expirySeconds nowMs : Nat) (choices : Nat → GenChoice)
    (ins : Nat → Option String) (s : DBState) (k : Nat)
    (hk : k < MAX_RETRIES) (hcoll : ∀ j, j < k → ins j = some "23505")
    (e : String) (he : ins k = some e) (hne : e ≠ "23505") :
    generateLoop pepper accountId amount expirySeconds nowMs choices ins 0 s =
      (Except.error e, s, k + 1) := by
  have h3 : MAX_RETRIES = 3 := rfl
  rw [h3] at hk
  interval_cases k
  · rw [generateLoop]
    simp only [he, MAX_RETRIES]
    norm_num
    intro hc
    exact absurd hc hne
  · rw [generateLoop]
    simp only [hcoll 0 (by omega), MAX_RETRIES]
    norm_num
    rw [generateLoop]
    simp only [he, MAX_RETRIES]
    norm_num
    intro hc
    exact absurd hc hne
  · rw [generateLoop]
    simp only [hcoll 0 (by omega), MAX_RETRIES]
    norm_num
    rw [generateLoop]
    simp only [hcoll 1 (by omega), MAX_RETRIES]
    norm_num
    rw [generateLoop]
    simp only [he, MAX_RETRIES]
    norm_num
    intro hc
    exact absurd hc hne

end Cardless

namespace Cardless

theorem generateLoop_ok_at (pepper accountId : String) (amount : ℚ)
    (expirySeconds nowMs : Nat) (choices : Nat → GenChoice)
    (ins : Nat → Option String) (s : DBState) (k : Nat)
    (hk : k < MAX_RETRIES) (hcoll : ∀ j, j < k → ins j = some "23505")
    (he : ins k = none) :
    generateLoop pepper accountId amount expirySeconds nowMs choices ins 0 s =
      (Except.ok ⟨s.nextId, genPlaintext choices k, amount,
         nowMs + expirySeconds * 1000⟩,
       ⟨s.tokens ++
          [genRecord pepper accountId amount expirySeconds nowMs choices k s],
        s.transactions, s.redemption_attempts, s.nextId + 1⟩,
       k + 1) := by
  have h3 : MAX_RETRIES = 3 := rfl
  rw [h3] at hk
  interval_cases k
  · rw [generateLoop]
    simp only [he, MAX_RETRIES]
    norm_num
    exact ⟨rfl, rfl⟩
  · rw [generateLoop]
    simp only [hcoll 0 (by omega), MAX_RETRIES]
    norm_num
    rw [generateLoop]
    simp only [he, MAX_RETRIES]
    norm_num
    exact ⟨rfl, rfl⟩
  · rw [generateLoop]
    simp only [hcoll 0 (by omega), MAX_RETRIES]
    norm_num
    rw [generateLoop]
    simp only [hcoll 1 (by omega), MAX_RETRIES]
    norm_num
    rw [generateLoop]
    simp only [he, MAX_RETRIES]
    norm_num
    exact ⟨rfl, rfl⟩

end Cardless

namespace Cardless

/-- C8: generation precondition.  For every amount that is not a strictly
positive integer (non-integral rationals such as 100.5, negatives, zero),
generateWithdrawalToken throws the validation error with the store
untouched and zero insert attempts — before any random generation,
hashing or storage work. -/
theorem generation_validation (pepper accountId : String) (amount : ℚ)
    (expirySeconds nowMs : Nat) (choices : Nat → GenChoice)
    (ins : Nat → Option String) (s : DBState)
    (h : amount.den ≠ 1 ∨ amount ≤ 0) :
    ∃ msg, generateWithdrawalToken pepper accountId amount expirySeconds nowMs
      choices ins s =
      (Except.error ("Invalid token generation params: " ++ msg), s, 0) := by
  unfold generateWithdrawalToken validateGenerationParams
  by_cases hu : isUuid accountId = false
  · rw [if_pos hu]
    exact ⟨_, rfl⟩
  · rw [if_neg hu, if_pos h]
    exact ⟨_, rfl⟩

/-- Witness for C8 at amount 100.5. -/
theorem generation_validation_witness :
    ((100.5 : ℚ).den ≠ 1 ∨ (100.5 : ℚ) ≤ 0) ∧
    ∃ msg, generateWithdrawalToken "pep"
      "123e4567-e89b-12d3-a456-426614174000" (100.5 : ℚ) 300 0
      (fun _ => ⟨fun _ => 0, fun _ => 0, 0⟩) (fun _ => none) DBState.empty =
      (Except.error ("Invalid token generation params: " ++ msg),
       DBState.empty, 0) :=
  ⟨by norm_num, generation_validation "pep"
    "123e4567-e89b-12d3-a456-426614174000" (100.5 : ℚ) 300 0
    (fun _ => ⟨fun _ => 0, fun _ => 0, 0⟩) (fun _ => none) DBState.empty
    (by norm_num)⟩

/-- C9: bounded collision retry.  With valid parameters: at most
MAX_RETRIES = 3 insert attempts are ever performed; if every attempt
raises the unique-violation code 23505 the call ends with the fatal
generation error after exactly 3 attempts; a non-collision storage error
at attempt k is rethrown immediately after k+1 attempts; and a successful
insert at attempt k returns a token built from attempt k's fresh prefix,
core and salt. -/
theorem generation_retry_bounded (pepper accountId : String) (amount : ℚ)
    (expirySeconds nowMs : Nat) (choices : Nat → GenChoice)
    (ins : Nat → Option String) (s : DBState)
    (hval : validateGenerationParams accountId amount = none) :
    (generateWithdrawalToken pepper accountId amount expirySeconds nowMs
        choices ins s).2.2 ≤ MAX_RETRIES ∧
    ((∀ k, k < MAX_RETRIES → ins k = some "23505") →
      generateWithdrawalToken pepper accountId amount expirySeconds nowMs
        choices ins s =
        (Except.error "Failed to generate unique token after maximum retries",
         s, MAX_RETRIES)) ∧
    (∀ k e, k < MAX_RETRIES → (∀ j, j < k → ins j = some "23505") →
      ins k = some e → e ≠ "23505" →
      generateWithdrawalToken pepper accountId amount expirySeconds nowMs
        choices ins s = (Except.error e, s, k + 1)) ∧
    (∀ k, k < MAX_RETRIES → (∀ j, j < k → ins j = some "23505") →
      ins k = none →
      (generateWithdrawalToken pepper accountId amount expirySeconds nowMs
        choices ins s).1 =
        Except.ok ⟨s.nextId, genPlaintext choices k, amount,
          nowMs + expirySeconds * 1000⟩) := by
  unfold generateWithdrawalToken
  rw [hval]
  refine ⟨generateLoop_count_le pepper accountId amount expirySeconds nowMs
    choices ins s 0 (by omega), ?_, ?_, ?_⟩
  · intro hall
    exact generateLoop_all_collide pepper accountId amount expirySeconds nowMs
      choices ins s 0 (by decide) (fun k _ hk => hall k hk)
  · intro k e hk hcoll he hne
    exact generateLoop_error_at pepper accountId amount expirySeconds nowMs
      choices ins s k hk hcoll e he hne
  · intro k hk hcoll he
    rw [generateLoop_ok_at pepper accountId amount expirySeconds nowMs
      choices ins s k hk hcoll he]

/-- Witness for C9: all three attempts collide on the concrete store. -/
theorem generation_retry_bounded_witness :
    validateGenerationParams "123e4567-e89b-12d3-a456-426614174000"
      (100 : ℚ) = none ∧
    generateWithdrawalToken "pep" "123e4567-e89b-12d3-a456-426614174000"
      (100 : ℚ) 300 0 (fun _ => ⟨fun _ => 0, fun _ => 0, 0⟩)
      (fun _ => some "23505") DBState.empty =
      (Except.error "Failed to generate unique token after maximum retries",
       DBState.empty, MAX_RETRIES) :=
  ⟨by decide,
   (generation_retry_bounded "pep" "123e4567-e89b-12d3-a456-426614174000"
     (100 : ℚ) 300 0 (fun _ => ⟨fun _ => 0, fun _ => 0, 0⟩)
     (fun _ => some "23505") DBState.empty (by decide)).2.1
     (fun k _ => rfl)⟩

end Cardless

namespace Cardless

/-- C2 is false on the code: from the empty store, generation succeeds
returning plaintext CCCC-FFFFFFFF; the first redemption with that exact
plaintext and agent atm-1 before expiry returns SUCCESS with transaction
id 1; but the second redemption with the same plaintext returns INVALID,
not EXPIRED_OR_USED — the now-USED token is filtered out of the ACTIVE
candidate set, so it is indistinguishable from a fabricated token. -/
theorem roundtrip_counterexample :
    (generateWithdrawalToken "pep" "123e4567-e89b-12d3-a456-426614174000"
        (100 : ℚ) 300 0 (fun _ => ⟨fun _ => 5, fun _ => 2, 7⟩) (fun _ => none)
        DBState.empty).1 =
      Except.ok ⟨0, tokCF, (100 : ℚ), 300000⟩ ∧
    (redeemWithdrawalToken "pep" tokCF "atm-1" "" 1 1 false
      (generateWithdrawalToken "pep" "123e4567-e89b-12d3-a456-426614174000"
        (100 : ℚ) 300 0 (fun _ => ⟨fun _ => 5, fun _ => 2, 7⟩) (fun _ => none)
        DBState.empty).2.1).res = RedeemResult.SUCCESS 0 1 ∧
    (redeemWithdrawalToken "pep" tokCF "atm-1" "" 2 2 false
      (redeemWithdrawalToken "pep" tokCF "atm-1" "" 1 1 false
        (generateWithdrawalToken "pep" "123e4567-e89b-12d3-a456-426614174000"
          (100 : ℚ) 300 0 (fun _ => ⟨fun _ => 5, fun _ => 2, 7⟩)
          (fun _ => none) DBState.empty).2.1).state).res =
      RedeemResult.INVALID ∧
    RedeemResult.INVALID ≠ RedeemResult.EXPIRED_OR_USED := by
  have hval : validateGenerationParams "123e4567-e89b-12d3-a456-426614174000"
      (100 : ℚ) = none := by decide
  have hgen : generateWithdrawalToken "pep"
      "123e4567-e89b-12d3-a456-426614174000" (100 : ℚ) 300 0
      (fun _ => ⟨fun _ => 5, fun _ => 2, 7⟩) (fun _ => none) DBState.empty =
      (Except.ok ⟨DBState.empty.nextId,
         genPlaintext (fun _ => ⟨fun _ => 5, fun _ => 2, 7⟩) 0, (100 : ℚ),
         0 + 300 * 1000⟩,
       ⟨DBState.empty.tokens ++
          [genRecord "pep" "123e4567-e89b-12d3-a456-426614174000" (100 : ℚ)
            300 0 (fun _ => ⟨fun _ => 5, fun _ => 2, 7⟩) 0 DBState.empty],
        DBState.empty.transactions, DBState.empty.redemption_attempts,
        DBState.empty.nextId + 1⟩,
       0 + 1) := by
    unfold generateWithdrawalToken
    rw [hval]
    exact generateLoop_ok_at "pep" "123e4567-e89b-12d3-a456-426614174000"
      (100 : ℚ) 300 0 (fun _ => ⟨fun _ => 5, fun _ => 2, 7⟩) (fun _ => none)
      DBState.empty 0 (by decide) (fun j h => absurd h (by omega)) rfl
  refine ⟨?_, ?_, ?_, by decide⟩
  · rw [hgen]
    rfl
  · rw [hgen]
    decide
  · rw [hgen]
    decide

end Cardless

namespace Cardless

/-- C2 amended: after generateWithdrawalToken(accountId, 100) succeeds
from the empty store and before expiry, the first redemption with the
exact returned plaintext and agent atm-1 returns SUCCESS with a
transaction id; a second call with the same plaintext returns INVALID
(not EXPIRED_OR_USED). -/
theorem roundtrip_amended (pepper accountId md md' : String) (c : GenChoice)
    (expirySeconds nowMs t1 t1' t2 t2' : Nat)
    (g : Except String GenOk × DBState × Nat)
    (hval : validateGenerationParams accountId 100 = none)
    (hg : generateWithdrawalToken pepper accountId 100 expirySeconds nowMs
      (fun _ => c) (fun _ => none) DBState.empty = g)
    (h1 : t1 < nowMs + expirySeconds * 1000)
    (h1' : t1' < nowMs + expirySeconds * 1000) :
    g.1 = Except.ok ⟨0, genPlaintext (fun _ => c) 0, 100,
      nowMs + expirySeconds * 1000⟩ ∧
    (redeemWithdrawalToken pepper (genPlaintext (fun _ => c) 0) "atm-1" md
      t1 t1' false g.2.1).res = RedeemResult.SUCCESS 0 1 ∧
    (redeemWithdrawalToken pepper (genPlaintext (fun _ => c) 0) "atm-1" md'
      t2 t2' false
      (redeemWithdrawalToken pepper (genPlaintext (fun _ => c) 0) "atm-1" md
        t1 t1' false g.2.1).state).res = RedeemResult.INVALID := by
  subst hg
  have hgen : generateWithdrawalToken pepper accountId 100 expirySeconds nowMs
      (fun _ => c) (fun _ => none) DBState.empty =
      (Except.ok ⟨DBState.empty.nextId, genPlaintext (fun _ => c) 0, 100,
         nowMs + expirySeconds * 1000⟩,
       ⟨DBState.empty.tokens ++
          [genRecord pepper accountId 100 expirySeconds nowMs (fun _ => c) 0
            DBState.empty],
        DBState.empty.transactions, DBState.empty.redemption_attempts,
        DBState.empty.nextId + 1⟩,
       0 + 1) := by
    unfold generateWithdrawalToken
    rw [hval]
    exact generateLoop_ok_at pepper accountId 100 expirySeconds nowMs
      (fun _ => c) (fun _ => none) DBState.empty 0 (by decide)
      (fun j h => absurd h (by omega)) rfl
  rw [hgen]
  have hmemdash : '-' ∈ genPlaintext (fun _ => c) 0 := by
    unfold genPlaintext
    exact List.mem_append.mpr (Or.inr (List.mem_cons_self _ _))
  have hsplit : splitDash (genPlaintext (fun _ => c) 0) =
      [generateRandomToken 4 c.prefixPick, generateRandomToken 8 c.corePick] :=
    splitDash_pair _ _ (dash_not_mem_generateRandomToken 4 _)
      (dash_not_mem_generateRandomToken 8 _)
  have hs0 : step0Ok (genPlaintext (fun _ => c) 0) "atm-1" = true := by
    unfold step0Ok
    rw [hsplit]
    simp [List.ne_nil_of_mem hmemdash, hmemdash, generateRandomToken_length]
  have hnd1 : (((⟨DBState.empty.tokens ++
      [genRecord pepper accountId 100 expirySeconds nowMs (fun _ => c) 0
        DBState.empty],
      DBState.empty.transactions, DBState.empty.redemption_attempts,
      DBState.empty.nextId + 1⟩ : DBState)).tokens.map Token.id).Nodup := by
    simp [DBState.empty]
  have hm1 : matchedCandidate pepper (genPlaintext (fun _ => c) 0)
      ((splitDash (genPlaintext (fun _ => c) 0)).getD 0 []) t1
      ⟨DBState.empty.tokens ++
        [genRecord pepper accountId 100 expirySeconds nowMs (fun _ => c) 0
          DBState.empty],
       DBState.empty.transactions, DBState.empty.redemption_attempts,
       DBState.empty.nextId + 1⟩ =
      some (genRecord pepper accountId 100 expirySeconds nowMs (fun _ => c) 0
        DBState.empty) := by
    rw [hsplit]
    unfold matchedCandidate genRecord genPlaintext
    simp [DBState.empty, List.filter, List.find?, h1]
  have hred1 : redeemWithdrawalToken pepper (genPlaintext (fun _ => c) 0)
      "atm-1" md t1 t1' false
      ⟨DBState.empty.tokens ++
        [genRecord pepper accountId 100 expirySeconds nowMs (fun _ => c) 0
          DBState.empty],
       DBState.empty.transactions, DBState.empty.redemption_attempts,
       DBState.empty.nextId + 1⟩ =
      ⟨.SUCCESS 0 1,
       successState
         ⟨DBState.empty.tokens ++
           [genRecord pepper accountId 100 expirySeconds nowMs (fun _ => c) 0
             DBState.empty],
          DBState.empty.transactions, DBState.empty.redemption_attempts,
          DBState.empty.nextId + 1⟩
         (genRecord pepper accountId 100 expirySeconds nowMs (fun _ => c) 0
           DBState.empty) "atm-1" md t1',
       [.txBegin, .query, .lockRow, .updateRow, .insertLedger, .insertAttempt,
        .txCommit]⟩ := by
    rw [redeem_eq, if_pos hs0]
    rw [redeemBody_matched pepper (genPlaintext (fun _ => c) 0)
      ((splitDash (genPlaintext (fun _ => c) 0)).getD 0 []) "atm-1" md t1 t1' _
      (genRecord pepper accountId 100 expirySeconds nowMs (fun _ => c) 0
        DBState.empty) hnd1 hm1]
    have hexp : ¬ (genRecord pepper accountId 100 expirySeconds nowMs
        (fun _ => c) 0 DBState.empty).expires_at ≤ t1' := Nat.not_le.mpr h1'
    rw [if_neg hexp]
    rfl
  have hm2 : matchedCandidate pepper (genPlaintext (fun _ => c) 0)
      ((splitDash (genPlaintext (fun _ => c) 0)).getD 0 []) t2
      (successState
        ⟨DBState.empty.tokens ++
          [genRecord pepper accountId 100 expirySeconds nowMs (fun _ => c) 0
            DBState.empty],
         DBState.empty.transactions, DBState.empty.redemption_attempts,
         DBState.empty.nextId + 1⟩
        (genRecord pepper accountId 100 expirySeconds nowMs (fun _ => c) 0
          DBState.empty) "atm-1" md t1') = none := by
    unfold matchedCandidate successState markUsed genRecord
    simp [DBState.empty]
  have hred2 : (redeemWithdrawalToken pepper (genPlaintext (fun _ => c) 0)
      "atm-1" md' t2 t2' false
      (successState
        ⟨DBState.empty.tokens ++
          [genRecord pepper accountId 100 expirySeconds nowMs (fun _ => c) 0
            DBState.empty],
         DBState.empty.transactions, DBState.empty.redemption_attempts,
         DBState.empty.nextId + 1⟩
        (genRecord pepper accountId 100 expirySeconds nowMs (fun _ => c) 0
          DBState.empty) "atm-1" md t1')).res = RedeemResult.INVALID := by
    rw [redeem_eq, if_pos hs0]
    rw [redeemBody_none pepper (genPlaintext (fun _ => c) 0)
      ((splitDash (genPlaintext (fun _ => c) 0)).getD 0 []) "atm-1" md' t2 t2'
      _ hm2]
    rfl
  refine ⟨rfl, ?_, ?_⟩
  · rw [hred1]
  · rw [hred1]
    exact hred2

end Cardless

namespace Cardless

/-- Witness for C2's amended statement at concrete oracles and times. -/
theorem roundtrip_amended_witness :
    validateGenerationParams "123e4567-e89b-12d3-a456-426614174000"
      (100 : ℚ) = none ∧
    ((generateWithdrawalToken "pep" "123e4567-e89b-12d3-a456-426614174000"
        (100 : ℚ) 300 0 (fun _ => ⟨fun _ => 5, fun _ => 2, 7⟩) (fun _ => none)
        DBState.empty).1 =
      Except.ok ⟨0, genPlaintext (fun _ => ⟨fun _ => 5, fun _ => 2, 7⟩) 0,
        (100 : ℚ), 0 + 300 * 1000⟩ ∧
     (redeemWithdrawalToken "pep"
       (genPlaintext (fun _ => ⟨fun _ => 5, fun _ => 2, 7⟩) 0) "atm-1" "" 1 1
       false (generateWithdrawalToken "pep"
         "123e4567-e89b-12d3-a456-426614174000" (100 : ℚ) 300 0
         (fun _ => ⟨fun _ => 5, fun _ => 2, 7⟩) (fun _ => none)
         DBState.empty).2.1).res = RedeemResult.SUCCESS 0 1 ∧
     (redeemWithdrawalToken "pep"
       (genPlaintext (fun _ => ⟨fun _ => 5, fun _ => 2, 7⟩) 0) "atm-1" "" 2 2
       false (redeemWithdrawalToken "pep"
         (genPlaintext (fun _ => ⟨fun _ => 5, fun _ => 2, 7⟩) 0) "atm-1" "" 1 1
         false (generateWithdrawalToken "pep"
           "123e4567-e89b-12d3-a456-426614174000" (100 : ℚ) 300 0
           (fun _ => ⟨fun _ => 5, fun _ => 2, 7⟩) (fun _ => none)
           DBState.empty).2.1).state).res = RedeemResult.INVALID) :=
  ⟨by decide,
   roundtrip_amended "pep" "123e4567-e89b-12d3-a456-426614174000" "" ""
     ⟨fun _ => 5, fun _ => 2, 7⟩ 300 0 1 1 2 2 _ (by decide) rfl
     (by norm_num) (by norm_num)⟩

end Cardless
